import Mathlib

/-!
Verification development for the market-research backtesting application.

Part 1 embeds the frontend state logic that is present in the repository:
the `useBacktest` React hook (src/frontend/src/hooks/useBacktest.ts) and the
backtest page component (the unnamed page file exporting `BacktestPage`).
React state is modelled as explicit state values; the async `run` operation is
modelled as a function from the prior hook state and the outcome of the
underlying `runBacktest` API call to the committed hook state plus the value
returned (or re-thrown) to the caller.

Part 2 models the backtesting engine itself (Bar Series, Strategy Policy,
Execution Simulator, Performance Analyzer, Orchestrator).  The engine's code
is not part of this repository's sources (the repository holds only the
frontend); those definitions are modelled from the specification, as marked
in their doc comments.

Modelling conventions:
- JavaScript strings are modelled as lists of character codes (`List ℕ`);
  `String.prototype.toUpperCase` is modelled on the ASCII range.
- Money and prices use exact rational arithmetic (`ℚ`).  A floating-point
  computation yields NaN or Infinity exactly when a division has a zero
  denominator (or a power has a non-positive base); the predicate
  `MetricsFinite` records that no metric computation hits such a case.
- Calendar dates are modelled as day ordinals (`ℕ`).
-/

namespace MarketResearch

/-! ## Part 1a: the useBacktest hook (src/frontend/src/hooks/useBacktest.ts) -/

/-- State held by the `useBacktest` hook: `isRunning`, `result`, `error`.
The result type is a parameter; the hook never inspects the result value. -/
structure HookState (α : Type) where
  isRunning : Bool
  result : Option α
  error : Option String
deriving Repr, DecidableEq

/-- Initial hook state: `useState(false)`, `useState(null)`, `useState(null)`. -/
def initialHookState (α : Type) : HookState α :=
  { isRunning := false, result := none, error := none }

/-- A value thrown by a rejected `runBacktest` promise: either a JS `Error`
object carrying a message, or some other thrown value. -/
inductive Thrown where
  | errorObj (message : String)
  | other
deriving Repr, DecidableEq

/-- The message stored by the catch branch:
`err instanceof Error ? err.message : "Backtest failed"`. -/
def thrownMessage : Thrown → String
  | .errorObj m => m
  | .other => "Backtest failed"

/-- Outcome of the awaited `runBacktest(config)` call. -/
inductive RunOutcome (α : Type) where
  | success (data : α)
  | failure (err : Thrown)

/-- Hook state right after `run` starts:
`setIsRunning(true); setError(null); setResult(null);`. -/
def runStart (α : Type) (_s : HookState α) : HookState α :=
  { isRunning := true, result := none, error := none }

/-- The committed hook state after `run` completes, together with the value the
caller observes: `Except.ok data` models `return data`, `Except.error err`
models the re-thrown exception.  The `finally` block sets `isRunning := false`
in both branches. -/
def runHook (α : Type) (s : HookState α) (o : RunOutcome α) :
    HookState α × Except Thrown α :=
  let s1 := runStart α s
  match o with
  | .success data => ({ s1 with isRunning := false, result := some data }, .ok data)
  | .failure err => ({ s1 with isRunning := false, error := some (thrownMessage err) }, .error err)

/-- The hook's `reset`: `setResult(null); setError(null); setIsRunning(false);`. -/
def resetHook (α : Type) (_s : HookState α) : HookState α :=
  { isRunning := false, result := none, error := none }

/-- At most one of `result` and `error` is non-null. -/
def ExclusiveState (α : Type) (s : HookState α) : Prop :=
  s.result = none ∨ s.error = none

/-! ## Part 1b: the BacktestPage component (unnamed frontend page file) -/

/-- One entry of the companion strategies query (`StrategyInfo` in lib/types):
a machine identifier and a human-readable display name. -/
structure StrategyInfo where
  name : String
  display_name : String
deriving Repr, DecidableEq

/-- A rendered `<option>` element: the submitted `value` attribute and the
visible text. -/
structure SelectOption where
  value : String
  label : String
deriving Repr, DecidableEq

/-- The option list of the strategy `<select>`: while the query is loading a
single placeholder option is shown (its submitted value defaults to its text);
once loaded, one option per strategy with `value={s.name}` and text
`{s.display_name}`. -/
def strategyOptions (strategiesLoading : Bool) (strategies : List StrategyInfo) :
    List SelectOption :=
  if strategiesLoading then
    [{ value := "Loading...", label := "Loading..." }]
  else
    strategies.map fun s => { value := s.name, label := s.display_name }

/-- JavaScript `String.prototype.toUpperCase`, modelled on character codes in
the ASCII range: codes 97..122 (a..z) map down by 32, everything else is
unchanged. -/
def jsToUpperCase (s : List ℕ) : List ℕ :=
  s.map fun c => if 97 ≤ c ∧ c ≤ 122 then c - 32 else c

/-- An ASCII lowercase letter code. -/
def IsLowerCode (c : ℕ) : Prop :=
  97 ≤ c ∧ c ≤ 122

instance (c : ℕ) : Decidable (IsLowerCode c) := by
  unfold IsLowerCode
  infer_instance

/-- The page's form state (the TS `BacktestConfig` object built by the form).
The ticker is a JS string (list of character codes); dates are the raw
`<input type="date">` strings. -/
structure PageConfig where
  strategy_type : String
  ticker : List ℕ
  start_date : String
  end_date : String
  initial_capital : ℚ
  position_size : ℚ
  commission : ℚ
  slippage : ℚ
  stop_loss : Option ℚ
  take_profit : Option ℚ
deriving Repr, DecidableEq

/-- The Ticker input's onChange handler:
`setConfig({ ...config, ticker: e.target.value.toUpperCase() })`. -/
def onTickerChange (config : PageConfig) (value : List ℕ) : PageConfig :=
  { config with ticker := jsToUpperCase value }

/-- HTML constraint validation of the form's number inputs: the browser blocks
submission when a non-empty number input violates its `min`/`max` attributes.
From the page source: initial_capital has `min="1000"`; position_size has
`min="0.1" max="1"`; stop_loss has `min="0.01" max="1"`; take_profit has
`min="0.01" max="5"`.  An empty optional field is stored as `null` and is not
constrained.  (The `step` attributes are not modelled; they only shrink the
allowed sets further, and every concrete value used below also satisfies its
`step`.) -/
def formAllowsSubmit (config : PageConfig) : Bool :=
  decide (1000 ≤ config.initial_capital) &&
  decide (1/10 ≤ config.position_size ∧ config.position_size ≤ 1) &&
  (match config.stop_loss with
   | none => true
   | some v => decide (1/100 ≤ v ∧ v ≤ 1)) &&
  (match config.take_profit with
   | none => true
   | some v => decide (1/100 ≤ v ∧ v ≤ 5))

/-- The value of an optional field lies strictly inside the unit interval. -/
def OptInOpenUnit (o : Option ℚ) : Prop :=
  ∀ v, o = some v → 0 < v ∧ v < 1

/-- The value of an optional field lies in the half-open unit interval (0, 1]. -/
def OptInHalfOpenUnit (o : Option ℚ) : Prop :=
  ∀ v, o = some v → 0 < v ∧ v ≤ 1

/-- The value of an optional field is strictly positive. -/
def OptPos (o : Option ℚ) : Prop :=
  ∀ v, o = some v → 0 < v

/-! ## Part 2: the backtesting engine

Modelled from the spec: the engine (Bar Series, Strategy Policy, Execution
Simulator, Performance Analyzer, Backtest Orchestrator) is invoked by the
frontend through the `runBacktest` API call but its code is not among this
repository's sources; every definition in this part follows the
specification's §3–§4 wording.  The spec's open choice of fill convention is
resolved as the spec fixes it: same-bar close with slippage, fractional
shares. -/

/-- Modelled from the spec: one OHLCV bar.  Dates are day ordinals. -/
structure Bar where
  date : ℕ
  open_price : ℚ
  high : ℚ
  low : ℚ
  close : ℚ
  volume : ℚ
deriving Repr, DecidableEq

/-- Modelled from the spec: the closed set of registered strategy variants. -/
inductive StrategyType where
  | buy_hold
  | ma_cross
  | rsi
deriving Repr, DecidableEq

/-- Modelled from the spec: the validated engine configuration.  The moving
average periods are the ma_cross strategy's own configurable parameters. -/
structure BacktestConfig where
  strategy_type : StrategyType
  ticker : List ℕ
  start_date : ℕ
  end_date : ℕ
  initial_capital : ℚ
  position_size : ℚ
  commission : ℚ
  slippage : ℚ
  stop_loss : Option ℚ
  take_profit : Option ℚ
  fast_period : ℕ
  slow_period : ℕ
deriving Repr, DecidableEq

/-- Modelled from the spec: a Strategy Policy decision. -/
inductive Decision where
  | enter
  | exit
  | hold
deriving Repr, DecidableEq

/-- Simple moving average of the last `n` values of `xs`. -/
def smaLast (n : ℕ) (xs : List ℚ) : ℚ :=
  ((xs.drop (xs.length - n)).sum) / n

/-- Modelled from the spec: moving-average crossover decision on the closes
visible so far.  Warm-up bars (fewer than `slow + 1` closes, so that both
averages exist on this bar and the prior bar) produce Hold; Enter when the
fast average crosses above the slow one (was ≤ on the prior bar, now >);
Exit on the symmetric downward cross. -/
def maCrossDecision (fast slow : ℕ) (closes : List ℚ) : Decision :=
  if closes.length < slow + 1 then .hold
  else
    let fNow := smaLast fast closes
    let sNow := smaLast slow closes
    let prev := closes.dropLast
    let fPrev := smaLast fast prev
    let sPrev := smaLast slow prev
    if fPrev ≤ sPrev ∧ sNow < fNow then .enter
    else if sPrev ≤ fPrev ∧ fNow < sNow then .exit
    else .hold

/-- Modelled from the spec: RSI(14) over the last 15 closes, with simple
averages of gains and losses; 100 when there are no losses. -/
def rsi14 (closes : List ℚ) : ℚ :=
  let xs := closes.drop (closes.length - 15)
  let diffs := List.zipWith (fun a b => b - a) xs xs.tail
  let gains := (diffs.map fun d => max d 0).sum / 14
  let losses := (diffs.map fun d => max (-d) 0).sum / 14
  if losses = 0 then 100 else 100 - 100 / (1 + gains / losses)

/-- Modelled from the spec: RSI mean-reversion decision.  Hold during warm-up
(fewer than 16 closes, so that RSI(14) exists on this bar and the prior bar);
Enter when RSI crosses below 30, Exit when it crosses above 70. -/
def rsiDecision (closes : List ℚ) : Decision :=
  if closes.length < 16 then .hold
  else
    let cur := rsi14 closes
    let prev := rsi14 closes.dropLast
    if 30 ≤ prev ∧ cur < 30 then .enter
    else if prev ≤ 70 ∧ 70 < cur then .exit
    else .hold

/-- Modelled from the spec: the Strategy Policy.  Given the sub-sequence of
bars from the series start up to and including the current bar (never any
later bar), return Enter / Exit / Hold.  Buy-and-hold enters on the first bar
with available data and never emits Exit. -/
def strategyDecision (cfg : BacktestConfig) (hist : List Bar) : Decision :=
  match cfg.strategy_type with
  | .buy_hold => if hist.length = 1 then .enter else .hold
  | .ma_cross => maCrossDecision cfg.fast_period cfg.slow_period (hist.map Bar.close)
  | .rsi => rsiDecision (hist.map Bar.close)

/-- Modelled from the spec: the leading bars an indicator strategy needs before
it can produce a non-Hold decision. -/
def warmupBars (cfg : BacktestConfig) : ℕ :=
  match cfg.strategy_type with
  | .buy_hold => 0
  | .ma_cross => cfg.slow_period + 1
  | .rsi => 16

/-- Modelled from the spec: why a trade was closed. -/
inductive ExitReason where
  | signal
  | stop_loss
  | take_profit
  | end_of_period
deriving Repr, DecidableEq

/-- Modelled from the spec: the transient open-position state owned by the
Execution Simulator.  `cost` is the entry notional plus entry commission, the
basis for the trade's pnl. -/
structure Position where
  entry_date : ℕ
  entry_price : ℚ
  shares : ℚ
  cost : ℚ
deriving Repr, DecidableEq

/-- Modelled from the spec: one completed round trip. -/
structure Trade where
  entry_date : ℕ
  exit_date : ℕ
  entry_price : ℚ
  exit_price : ℚ
  shares : ℚ
  pnl : ℚ
  return_pct : ℚ
  hold_days : ℕ
  exit_reason : ExitReason
deriving Repr, DecidableEq

/-- Modelled from the spec: the simulator's single-owner state threaded through
the per-bar loop. -/
structure SimState where
  cash : ℚ
  pos : Option Position
  trades : List Trade
  equity : List ℚ
deriving Repr, DecidableEq

/-- Modelled from the spec: entry fill.  The buy fills at
`close × (1 + slippage)`; shares are fractional,
`position_size × available_capital / fill`; commission is charged on the
notional and deducted from capital. -/
def applyEntry (cfg : BacktestConfig) (bar : Bar) (st : SimState) : SimState :=
  let fill := bar.close * (1 + cfg.slippage)
  let shares := cfg.position_size * st.cash / fill
  let notional := shares * fill
  let fee := cfg.commission * notional
  { st with
    cash := st.cash - notional - fee
    pos := some { entry_date := bar.date, entry_price := fill, shares := shares,
                  cost := notional + fee } }

/-- Modelled from the spec: exit fill at `base × (1 − slippage)` (the sell
fills lower), commission charged on the exit notional, trade recorded, capital
released. -/
def closePos (cfg : BacktestConfig) (p : Position) (base : ℚ) (reason : ExitReason)
    (exitDate : ℕ) (st : SimState) : SimState :=
  let fill := base * (1 - cfg.slippage)
  let proceeds := p.shares * fill
  let fee := cfg.commission * proceeds
  let cashIn := proceeds - fee
  let t : Trade :=
    { entry_date := p.entry_date, exit_date := exitDate, entry_price := p.entry_price,
      exit_price := fill, shares := p.shares, pnl := cashIn - p.cost,
      return_pct := (cashIn - p.cost) / p.cost, hold_days := exitDate - p.entry_date,
      exit_reason := reason }
  { st with cash := st.cash + cashIn, pos := none, trades := st.trades ++ [t] }

/-- Modelled from the spec: the stop-loss threshold price, when the bar's low
touched it. -/
def stopTouched (cfg : BacktestConfig) (p : Position) (bar : Bar) : Option ℚ :=
  match cfg.stop_loss with
  | some sl => if bar.low ≤ p.entry_price * (1 - sl) then some (p.entry_price * (1 - sl)) else none
  | none => none

/-- Modelled from the spec: the take-profit threshold price, when the bar's
high touched it. -/
def takeProfitTouched (cfg : BacktestConfig) (p : Position) (bar : Bar) : Option ℚ :=
  match cfg.take_profit with
  | some tp => if p.entry_price * (1 + tp) ≤ bar.high then some (p.entry_price * (1 + tp)) else none
  | none => none

/-- Modelled from the spec: exit triggers in fixed priority — stop_loss first,
then take_profit, then the strategy's Exit signal (filled at the bar's close). -/
def exitTrigger (cfg : BacktestConfig) (d : Decision) (bar : Bar) (p : Position) :
    Option (ℚ × ExitReason) :=
  match stopTouched cfg p bar with
  | some q => some (q, .stop_loss)
  | none =>
    match takeProfitTouched cfg p bar with
    | some q => some (q, .take_profit)
    | none => if d = .exit then some (bar.close, .signal) else none

/-- Modelled from the spec: the equity entry for a bar — capital when flat,
mark-to-market at the bar's close when long. -/
def markValue (st : SimState) (bar : Bar) : ℚ :=
  match st.pos with
  | none => st.cash
  | some p => st.cash + p.shares * bar.close

/-- Modelled from the spec: per-bar step 2 — when flat and the decision is
Enter, open the position. -/
def entryPhase (cfg : BacktestConfig) (d : Decision) (bar : Bar) (st : SimState) : SimState :=
  match st.pos with
  | none => if d = Decision.enter then applyEntry cfg bar st else st
  | some _ => st

/-- Modelled from the spec: per-bar step 3 — when long, evaluate the exit
triggers and close the position if one fires. -/
def exitPhase (cfg : BacktestConfig) (d : Decision) (bar : Bar) (st1 : SimState) : SimState :=
  match st1.pos with
  | some p =>
    match exitTrigger cfg d bar p with
    | some (base, reason) => closePos cfg p base reason bar.date st1
    | none => st1
  | none => st1

/-- Modelled from the spec: the per-bar algorithm, steps in order — query the
policy on the visible history, enter when flat on an Enter decision, evaluate
exit triggers when long, then append this bar's equity entry. -/
def stepBar (cfg : BacktestConfig) (hist : List Bar) (bar : Bar) (st : SimState) : SimState :=
  let d := strategyDecision cfg hist
  let st2 := exitPhase cfg d bar (entryPhase cfg d bar st)
  { st2 with equity := st2.equity ++ [markValue st2 bar] }

/-- Modelled from the spec: the single pass over the Bar Series, threading the
visible history and the simulator state. -/
def simLoop (cfg : BacktestConfig) : List Bar → List Bar → SimState → SimState
  | _hist, [], st => st
  | hist, bar :: rest, st =>
    simLoop cfg (hist ++ [bar]) rest (stepBar cfg (hist ++ [bar]) bar st)

/-- Modelled from the spec: the initial simulator state. -/
def initState (cfg : BacktestConfig) : SimState :=
  { cash := cfg.initial_capital, pos := none, trades := [], equity := [] }

/-- Modelled from the spec: after the last bar, a still-open position is
force-closed at the final bar's close with exit_reason end_of_period
(commission and slippage are charged on every exit). -/
def forceClose (cfg : BacktestConfig) (bars : List Bar) (st : SimState) : SimState :=
  match st.pos, bars.getLast? with
  | some p, some lb => closePos cfg p lb.close .end_of_period lb.date st
  | _, _ => st

/-- Modelled from the spec: the Execution Simulator — a pure function of
(Config, Bar Series) producing the Trade Ledger and EquityCurve. -/
def simulate (cfg : BacktestConfig) (bars : List Bar) : SimState :=
  forceClose cfg bars (simLoop cfg [] bars (initState cfg))

/-- The simulator's EquityCurve. -/
def equityCurve (cfg : BacktestConfig) (bars : List Bar) : List ℚ :=
  (simulate cfg bars).equity

/-- The simulator's Trade Ledger. -/
def tradeLedger (cfg : BacktestConfig) (bars : List Bar) : List Trade :=
  (simulate cfg bars).trades

/-! ### Performance Analyzer (modelled from the spec, §4.3) -/

/-- Modelled from the spec: the final portfolio value, the last EquityCurve
entry (the initial capital when the curve is empty). -/
def finalValue (cfg : BacktestConfig) (bars : List Bar) : ℚ :=
  (equityCurve cfg bars).getLastD cfg.initial_capital

/-- Modelled from the spec: `total_return = final_value / initial_capital - 1`. -/
def totalReturn (cfg : BacktestConfig) (bars : List Bar) : ℚ :=
  finalValue cfg bars / cfg.initial_capital - 1

/-- Modelled from the spec: period-over-period percentage change of the
EquityCurve. -/
def dailyReturns (e : List ℚ) : List ℚ :=
  List.zipWith (fun prev cur => (cur - prev) / prev) e e.tail

/-- Mean of a list of rationals, 0 for the empty list. -/
def meanQ (xs : List ℚ) : ℚ :=
  if xs.length = 0 then 0 else xs.sum / xs.length

/-- Population variance of a list of rationals, 0 for the empty list. -/
def varianceQ (xs : List ℚ) : ℚ :=
  if xs.length = 0 then 0 else ((xs.map fun x => (x - meanQ xs) ^ 2).sum) / xs.length

/-- Modelled from the spec: calendar span between the first and last bar. -/
def elapsedDays (bars : List Bar) : ℕ :=
  match bars.head?, bars.getLast? with
  | some f, some l => l.date - f.date
  | _, _ => 0

/-- Modelled from the spec: CAGR, `(1 + total_return) ^ (365.25 / elapsed_days)
- 1`, with the single-bar guard `elapsed_days = 0 → 0`. -/
noncomputable def annualReturn (cfg : BacktestConfig) (bars : List Bar) : ℝ :=
  if elapsedDays bars = 0 then 0
  else ((1 : ℝ) + (totalReturn cfg bars : ℝ)) ^ ((1461 / 4 : ℝ) / (elapsedDays bars : ℝ)) - 1

/-- Modelled from the spec: annualized volatility, standard deviation of daily
returns times √252, 0 with fewer than 2 return observations. -/
noncomputable def volatility (cfg : BacktestConfig) (bars : List Bar) : ℝ :=
  let rs := dailyReturns (equityCurve cfg bars)
  if rs.length < 2 then 0
  else Real.sqrt ((varianceQ rs : ℝ)) * Real.sqrt 252

/-- Modelled from the spec: Sharpe ratio with zero risk-free rate,
`mean / stdev × √252`, defined as 0 when the standard deviation is 0 (flat or
single-bar equity curve). -/
noncomputable def sharpeRatio (cfg : BacktestConfig) (bars : List Bar) : ℝ :=
  let rs := dailyReturns (equityCurve cfg bars)
  if varianceQ rs = 0 then 0
  else ((meanQ rs : ℝ) / Real.sqrt ((varianceQ rs : ℝ))) * Real.sqrt 252

/-- Drawdown accumulator over the curve after the first peak. -/
def ddAux (peak : ℚ) : List ℚ → ℚ
  | [] => 0
  | v :: vs => max ((max peak v - v) / max peak v) (ddAux (max peak v) vs)

/-- Modelled from the spec: maximum of `(peak - value) / peak` over all running
peaks of the EquityCurve. -/
def maxDrawdown : List ℚ → ℚ
  | [] => 0
  | e :: es => ddAux e es

/-- Modelled from the spec: `win_rate = wins / total_trades`, 0 with no trades. -/
def winRate (trades : List Trade) : ℚ :=
  if trades.length = 0 then 0
  else ((trades.filter fun t => decide (0 < t.pnl)).length : ℚ) / trades.length

/-- Modelled from the spec: buy-and-hold total return over the same window,
`last_close / first_close - 1`. -/
def benchmarkReturn (bars : List Bar) : ℚ :=
  match bars.head?, bars.getLast? with
  | some f, some l => l.close / f.close - 1
  | _, _ => 0

/-- First bar's close (0 for an empty series). -/
def headClose (bars : List Bar) : ℚ :=
  match bars.head? with
  | some b => b.close
  | none => 0

/-- First bar's date (0 for an empty series). -/
def headDate (bars : List Bar) : ℕ :=
  match bars.head? with
  | some b => b.date
  | none => 0

/-- Last bar's close (0 for an empty series). -/
def lastClose (bars : List Bar) : ℚ :=
  match bars.getLast? with
  | some b => b.close
  | none => 0

/-- Last bar's date (0 for an empty series). -/
def lastDate (bars : List Bar) : ℕ :=
  match bars.getLast? with
  | some b => b.date
  | none => 0

/-- Modelled from the spec: the assembled BacktestResult. -/
structure BacktestResult where
  final_value : ℚ
  total_return : ℚ
  annual_return : ℝ
  volatility : ℝ
  sharpe_ratio : ℝ
  max_drawdown : ℚ
  total_trades : ℕ
  win_rate : ℚ
  benchmark_return : ℚ
  alpha : ℚ
  trades : List Trade

/-- Modelled from the spec: the Performance Analyzer assembling the result
from the EquityCurve and Trade Ledger. -/
noncomputable def analyze (cfg : BacktestConfig) (bars : List Bar) : BacktestResult :=
  { final_value := finalValue cfg bars
    total_return := totalReturn cfg bars
    annual_return := annualReturn cfg bars
    volatility := volatility cfg bars
    sharpe_ratio := sharpeRatio cfg bars
    max_drawdown := maxDrawdown (equityCurve cfg bars)
    total_trades := (tradeLedger cfg bars).length
    win_rate := winRate (tradeLedger cfg bars)
    benchmark_return := benchmarkReturn bars
    alpha := totalReturn cfg bars - benchmarkReturn bars
    trades := tradeLedger cfg bars }

/-- Modelled from the spec: the Orchestrator's error taxonomy — validation
errors and data-availability errors are the only cases without a result. -/
inductive BacktestError where
  | invalidConfig
  | noData
deriving Repr, DecidableEq

/-- Modelled from the spec: Orchestrator validation of the input contract —
date ordering, non-empty ticker, positive capital, position_size in (0, 1],
non-negative costs, optional stop_loss in (0, 1), optional positive
take_profit. -/
def validConfig (cfg : BacktestConfig) : Bool :=
  decide (cfg.start_date < cfg.end_date) &&
  decide (cfg.ticker ≠ []) &&
  decide (0 < cfg.initial_capital) &&
  decide (0 < cfg.position_size ∧ cfg.position_size ≤ 1) &&
  decide (0 ≤ cfg.commission) &&
  decide (0 ≤ cfg.slippage) &&
  (match cfg.stop_loss with
   | none => true
   | some sl => decide (0 < sl ∧ sl < 1)) &&
  (match cfg.take_profit with
   | none => true
   | some tp => decide (0 < tp))

/-- Modelled from the spec: the Backtest Orchestrator — fail fast on an
invalid configuration, report a data-availability error on an empty series,
otherwise simulate, analyze and assemble the result. -/
noncomputable def runBacktest (cfg : BacktestConfig) (bars : List Bar) :
    Except BacktestError BacktestResult :=
  if validConfig cfg = true then
    if bars.isEmpty then .error .noData else .ok (analyze cfg bars)
  else .error .invalidConfig

/-! ### Finiteness of the metrics.

In IEEE floating point the analyzer's formulas produce NaN or ±Infinity
exactly when a division's denominator is zero or the CAGR power has a
non-positive base.  `MetricsFinite` checks every unguarded division site of
the analyzer: `total_return` divides by the initial capital,
`benchmark_return` by the first close, each daily return by the previous
equity value (the first `n − 1` entries of the curve, i.e. `dropLast`), each
drawdown term by its running peak, and the CAGR base must be positive when
the elapsed-days guard does not apply.  (The mean and variance divisions are
reached only behind the stdev-zero / fewer-than-2-observations guards with a
nonempty list, and `win_rate` is guarded at zero trades.) -/

/-- Every running peak used by `maxDrawdown` is nonzero. -/
def DdDefined (peak : ℚ) : List ℚ → Prop
  | [] => True
  | v :: vs => max peak v ≠ 0 ∧ DdDefined (max peak v) vs

/-- All drawdown denominators of a curve are nonzero. -/
def MaxDrawdownDefined : List ℚ → Prop
  | [] => True
  | e :: es => DdDefined e es

/-- No metric computation of `analyze cfg bars` divides by zero or raises a
non-positive base to a fractional power; the floating-point result carries no
NaN or Infinity. -/
def MetricsFinite (cfg : BacktestConfig) (bars : List Bar) : Prop :=
  cfg.initial_capital ≠ 0 ∧
  headClose bars ≠ 0 ∧
  (∀ v ∈ (equityCurve cfg bars).dropLast, v ≠ 0) ∧
  MaxDrawdownDefined (equityCurve cfg bars) ∧
  (elapsedDays bars ≠ 0 → 0 < 1 + totalReturn cfg bars)

/-- A list whose entries are all equal (a constant EquityCurve). -/
def ListConst (l : List ℚ) : Prop :=
  ∀ x ∈ l, ∀ y ∈ l, x = y

instance (l : List ℚ) : Decidable (ListConst l) := by
  unfold ListConst
  infer_instance

/-! ### The results panel of the BacktestPage (from the page source). -/

/-- Which main panel the results column shows. -/
inductive Panel where
  | metricsWithTrades
  | metricsNoTrades
  | placeholder
deriving Repr, DecidableEq

/-- What the results column renders. -/
structure ResultsView where
  showsErrorBox : Bool
  panel : Panel
deriving Repr, DecidableEq

/-- The results column of the page: the error box is rendered exactly when
`error` is non-null; with a result, the trades table is shown when
`result.trades.length > 0` and the "No Trades Executed" message when the trade
list is empty; without a result, the configure-and-run placeholder. -/
def resultsView (result : Option BacktestResult) (error : Option String) : ResultsView :=
  { showsErrorBox := error.isSome
    panel :=
      match result with
      | some r => if r.trades.isEmpty then .metricsNoTrades else .metricsWithTrades
      | none => .placeholder }

/-- The configuration facts used by the simulator invariants: the validated
input contract (§6) plus the extra bounds under which the equity curve stays
positive — the entry budget `position_size × (1 + commission) ≤ 1`, commission
below 100% and slippage below 100%. -/
def CfgOK (cfg : BacktestConfig) : Prop :=
  0 < cfg.initial_capital ∧
  0 < cfg.position_size ∧ cfg.position_size ≤ 1 ∧
  0 ≤ cfg.commission ∧ 0 ≤ cfg.slippage ∧
  (∀ x, cfg.stop_loss = some x → 0 < x ∧ x < 1) ∧
  (∀ x, cfg.take_profit = some x → 0 < x) ∧
  cfg.position_size * (1 + cfg.commission) ≤ 1 ∧
  cfg.commission < 1 ∧ cfg.slippage < 1

/-- Position-side invariant: when flat the cash is positive; when long the
cash is non-negative and the position has positive shares and entry price. -/
def PosOK (cash : ℚ) : Option Position → Prop
  | none => 0 < cash
  | some p => 0 ≤ cash ∧ 0 < p.shares ∧ 0 < p.entry_price

/-- The simulator state invariant: every equity entry written so far is
positive, and `PosOK` holds for the cash and position. -/
def InvS (st : SimState) : Prop :=
  (∀ v ∈ st.equity, 0 < v) ∧ PosOK st.cash st.pos

/-! ### Closed form of a buy-and-hold run (derived abbreviations).

When the strategy is buy-and-hold and no stop-loss or take-profit is set, the
simulator enters on the first bar and stays long until the forced close; the
following abbreviations name the entry fill, share count, cost basis, cash
after entry and the long-state reached, in terms of the configuration and the
first bar. -/

/-- Entry fill price of a buy-and-hold run: first close adjusted by slippage. -/
def bhFill (cfg : BacktestConfig) (b0 : Bar) : ℚ :=
  b0.close * (1 + cfg.slippage)

/-- Shares bought on the first bar of a buy-and-hold run. -/
def bhShares (cfg : BacktestConfig) (b0 : Bar) : ℚ :=
  cfg.position_size * cfg.initial_capital / bhFill cfg b0

/-- Cost basis (notional plus entry commission) of the buy-and-hold position. -/
def bhCost (cfg : BacktestConfig) (b0 : Bar) : ℚ :=
  bhShares cfg b0 * bhFill cfg b0 + cfg.commission * (bhShares cfg b0 * bhFill cfg b0)

/-- Cash remaining after the buy-and-hold entry. -/
def bhCash (cfg : BacktestConfig) (b0 : Bar) : ℚ :=
  cfg.initial_capital - bhShares cfg b0 * bhFill cfg b0 -
    cfg.commission * (bhShares cfg b0 * bhFill cfg b0)

/-- The open position of a buy-and-hold run. -/
def bhPosition (cfg : BacktestConfig) (b0 : Bar) : Position :=
  { entry_date := b0.date, entry_price := bhFill cfg b0,
    shares := bhShares cfg b0, cost := bhCost cfg b0 }

/-- The simulator state of a buy-and-hold run after marking the given bars:
long since the first bar, no recorded trades, one equity entry per bar. -/
def bhLongState (cfg : BacktestConfig) (b0 : Bar) (bars : List Bar) : SimState :=
  { cash := bhCash cfg b0, pos := some (bhPosition cfg b0), trades := [],
    equity := bars.map fun b => bhCash cfg b0 + bhShares cfg b0 * b.close }

/-! ## Concrete fixtures used by witnesses and counterexamples -/

/-- A bar whose four prices all equal `px`. -/
def mkFlatBar (d : ℕ) (px : ℚ) : Bar :=
  { date := d, open_price := px, high := px, low := px, close := px, volume := 0 }

/-- Buy-and-hold, full position, zero commission and slippage, no stops. -/
def cfgBH : BacktestConfig :=
  { strategy_type := .buy_hold, ticker := [65, 65, 80, 76],
    start_date := 0, end_date := 10,
    initial_capital := 100000, position_size := 1,
    commission := 0, slippage := 0,
    stop_loss := none, take_profit := none,
    fast_period := 10, slow_period := 20 }

/-- Buy-and-hold with only half the capital deployed. -/
def cfgHalfPos : BacktestConfig :=
  { cfgBH with position_size := 1 / 2 }

/-- Buy-and-hold with a 100% commission rate (valid per the input contract,
which only requires commission to be non-negative). -/
def cfgFullComm : BacktestConfig :=
  { cfgBH with commission := 1 }

/-- Moving-average crossover with a 20-period slow average. -/
def cfgMA : BacktestConfig :=
  { cfgBH with strategy_type := .ma_cross }

/-- The spec's concrete 3-bar scenario with closes 100, 110, 90. -/
def bars3 : List Bar :=
  [mkFlatBar 0 100, mkFlatBar 1 110, mkFlatBar 2 90]

/-- A 2-bar series with closes 100 and 110. -/
def barsUp2 : List Bar :=
  [mkFlatBar 0 100, mkFlatBar 1 110]

/-- A 3-bar series with a constant close of 100. -/
def barsFlat3 : List Bar :=
  [mkFlatBar 0 100, mkFlatBar 1 100, mkFlatBar 2 100]

/-- A 5-bar series, shorter than a 20-period moving-average warm-up. -/
def bars5 : List Bar :=
  [mkFlatBar 0 100, mkFlatBar 1 101, mkFlatBar 2 102, mkFlatBar 3 103, mkFlatBar 4 104]

/-- A form state the page allows to submit whose stop_loss is exactly 1
(allowed by the input's inclusive max attribute). -/
def pageCfgSL1 : PageConfig :=
  { strategy_type := "buy_hold", ticker := [65, 65, 80, 76],
    start_date := "2023-01-01", end_date := "2024-01-01",
    initial_capital := 100000, position_size := 1,
    commission := 1 / 1000, slippage := 1 / 1000,
    stop_loss := some 1, take_profit := none }

/-- An ordinary submittable form state with both optional fields present. -/
def pageCfgOk : PageConfig :=
  { strategy_type := "buy_hold", ticker := [65, 65, 80, 76],
    start_date := "2023-01-01", end_date := "2024-01-01",
    initial_capital := 100000, position_size := 1,
    commission := 1 / 1000, slippage := 1 / 1000,
    stop_loss := some (1 / 2), take_profit := some (1 / 10) }

/-! ## Theorems -/

/-- C4: when the awaited `runBacktest` call rejects with an Error, the hook's
committed error state holds that Error's message verbatim, the result state is
null, and the exception is re-thrown to the caller; when it resolves, the
result state holds the returned data and the error state is null. -/
theorem run_rejection_surfaces_error (α : Type) (s s' : HookState α) (m : String) (data : α) :
    ((runHook α s (.failure (.errorObj m))).1.error = some m ∧
     (runHook α s (.failure (.errorObj m))).1.result = none ∧
     (runHook α s (.failure (.errorObj m))).2 = .error (.errorObj m)) ∧
    ((runHook α s' (.success data)).1.result = some data ∧
     (runHook α s' (.success data)).1.error = none) :=
  ⟨⟨rfl, rfl, rfl⟩, ⟨rfl, rfl⟩⟩

/-- C7: once the strategies query has loaded, the strategy select is populated
exactly from the returned entries — one option per strategy, submitted value
the strategy's identifier, visible label its display name. -/
theorem strategy_select_options_from_query (strategies : List StrategyInfo) :
    strategyOptions false strategies =
      strategies.map fun s => { value := s.name, label := s.display_name } := by
  simp [strategyOptions]

/-- C8: after any completed hook operation (a run that resolved, a run that
rejected, or reset) at most one of result and error is non-null, and run
clears both at its start. -/
theorem hook_result_error_exclusive (α : Type) (s : HookState α) (o : RunOutcome α) :
    ExclusiveState α (runHook α s o).1 ∧ ExclusiveState α (resetHook α s) ∧
    (runStart α s).result = none ∧ (runStart α s).error = none := by
  refine ⟨?_, Or.inl rfl, rfl, rfl⟩
  cases o with
  | success data => exact Or.inr rfl
  | failure err => exact Or.inl rfl

/-- C9: the ticker stored by the Ticker input's onChange handler is the
uppercase image of the entered string, and therefore contains no ASCII
lowercase letter. -/
theorem ticker_input_uppercased (config : PageConfig) (value : List ℕ) :
    (onTickerChange config value).ticker = jsToUpperCase value ∧
    ∀ c ∈ (onTickerChange config value).ticker, ¬ IsLowerCode c := by
  refine ⟨rfl, ?_⟩
  intro c hc
  simp only [onTickerChange, jsToUpperCase, List.mem_map] at hc
  obtain ⟨a, _, rfl⟩ := hc
  unfold IsLowerCode
  by_cases h : 97 ≤ a ∧ a ≤ 122
  · simp only [if_pos h]
    omega
  · simp only [if_neg h]
    exact h

/-- C10: reset always restores the initial hook state, whatever the prior
state, and is idempotent. -/
theorem reset_restores_initial_state (α : Type) (s : HookState α) :
    resetHook α s = initialHookState α ∧
    resetHook α (resetHook α s) = resetHook α s :=
  ⟨rfl, rfl⟩

/-- C6 counterexample: the form allows submitting a configuration whose
stop_loss is exactly 1 (the input's max attribute is inclusive), so the
submitted stop_loss is not strictly between 0 and 1. -/
theorem form_allows_stop_loss_equal_one :
    formAllowsSubmit pageCfgSL1 = true ∧ pageCfgSL1.stop_loss = some 1 ∧
    ¬ OptInOpenUnit pageCfgSL1.stop_loss := by
  refine ⟨by norm_num [formAllowsSubmit, pageCfgSL1], rfl, ?_⟩
  intro h
  have h1 := h 1 rfl
  exact absurd h1.2 (lt_irrefl 1)

/-- C6 (amended): every configuration the form allows the user to submit has
stop_loss null or in the half-open interval (0, 1], and take_profit null or
strictly positive. -/
theorem form_allowed_optional_field_ranges (config : PageConfig)
    (h : formAllowsSubmit config = true) :
    OptInHalfOpenUnit config.stop_loss ∧ OptPos config.take_profit := by
  constructor
  · intro v hv
    simp only [formAllowsSubmit, hv, Bool.and_eq_true, decide_eq_true_eq] at h
    exact ⟨lt_of_lt_of_le (by norm_num) h.1.2.1, h.1.2.2⟩
  · intro v hv
    simp only [formAllowsSubmit, hv, Bool.and_eq_true, decide_eq_true_eq] at h
    exact lt_of_lt_of_le (by norm_num) h.2.1

/-- C6 witness: the amended statement applied to a concrete allowed form
state with stop_loss one half and take_profit one tenth. -/
theorem form_allowed_optional_field_ranges_witness :
    OptInHalfOpenUnit pageCfgOk.stop_loss ∧ OptPos pageCfgOk.take_profit :=
  form_allowed_optional_field_ranges pageCfgOk (by norm_num [formAllowsSubmit, pageCfgOk])

/-! ### List helpers -/

theorem getLastD_mem_or (l : List ℚ) (d : ℚ) : l.getLastD d = d ∨ l.getLastD d ∈ l := by
  induction l generalizing d with
  | nil => exact Or.inl rfl
  | cons a as ih =>
    rw [List.getLastD_cons]
    rcases ih a with h | h
    · refine Or.inr ?_
      rw [h]
      exact List.mem_cons_self a as
    · exact Or.inr (List.mem_cons_of_mem a h)

theorem getLastD_map_cons (g : Bar → ℚ) (b : Bar) (l : List Bar) (d : ℚ) :
    ((b :: l).map g).getLastD d = g ((b :: l).getLast (List.cons_ne_nil b l)) := by
  induction l generalizing b d with
  | nil => rfl
  | cons x xs ih =>
    rw [List.map_cons, List.getLastD_cons, List.getLast_cons (List.cons_ne_nil x xs)]
    exact ih x (g b)

/-! ### Extracting the configuration facts from validation -/

theorem cfgOK_of_valid (cfg : BacktestConfig) (hv : validConfig cfg = true)
    (hbudget : cfg.position_size * (1 + cfg.commission) ≤ 1)
    (hcomm : cfg.commission < 1) (hslip : cfg.slippage < 1) : CfgOK cfg := by
  simp only [validConfig, Bool.and_eq_true, decide_eq_true_eq] at hv
  obtain ⟨⟨⟨⟨⟨⟨⟨h1, h2⟩, h3⟩, h4⟩, h5⟩, h6⟩, hsl⟩, htp⟩ := hv
  refine ⟨h3, h4.1, h4.2, h5, h6, ?_, ?_, hbudget, hcomm, hslip⟩
  · intro x hx
    rw [hx] at hsl
    simpa using hsl
  · intro x hx
    rw [hx] at htp
    simpa using htp

/-! ### Analyzer lemmas -/

theorem dailyReturns_zero_of_const :
    ∀ (e : List ℚ), ListConst e → ∀ r ∈ dailyReturns e, r = 0 := by
  intro e
  induction e with
  | nil => intro _ r hr; simp [dailyReturns] at hr
  | cons a as ih =>
    cases as with
    | nil => intro _ r hr; simp [dailyReturns] at hr
    | cons b bs =>
      intro h r hr
      rw [show dailyReturns (a :: b :: bs) = ((b - a) / a) :: dailyReturns (b :: bs) from rfl] at hr
      rcases List.mem_cons.1 hr with rfl | hr2
      · have hab : a = b := h a (by simp) b (by simp)
        rw [← hab]
        simp
      · exact ih (fun x hx y hy =>
          h x (List.mem_cons_of_mem a hx) y (List.mem_cons_of_mem a hy)) r hr2

theorem varianceQ_zero_of_zero {xs : List ℚ} (h : ∀ x ∈ xs, x = 0) : varianceQ xs = 0 := by
  unfold varianceQ
  by_cases hl : xs.length = 0
  · simp [hl]
  · rw [if_neg hl]
    have hm : meanQ xs = 0 := by
      unfold meanQ
      rw [if_neg hl, List.sum_eq_zero h, zero_div]
    have hsum : (xs.map fun x => (x - meanQ xs) ^ 2).sum = 0 := by
      apply List.sum_eq_zero
      intro y hy
      obtain ⟨x, hx, rfl⟩ := List.mem_map.1 hy
      rw [h x hx, hm]
      ring
    rw [hsum, zero_div]

theorem sharpe_zero_of_const (cfg : BacktestConfig) (bars : List Bar)
    (h : ListConst (equityCurve cfg bars)) : sharpeRatio cfg bars = 0 := by
  have hv : varianceQ (dailyReturns (equityCurve cfg bars)) = 0 :=
    varianceQ_zero_of_zero fun r hr => dailyReturns_zero_of_const _ h r hr
  simp [sharpeRatio, hv]


/-! ### Projection equations for the simulator primitives -/

theorem applyEntry_cash_eq (cfg : BacktestConfig) (bar : Bar) (st : SimState) :
    (applyEntry cfg bar st).cash =
      st.cash - cfg.position_size * st.cash / (bar.close * (1 + cfg.slippage)) *
        (bar.close * (1 + cfg.slippage)) -
      cfg.commission * (cfg.position_size * st.cash / (bar.close * (1 + cfg.slippage)) *
        (bar.close * (1 + cfg.slippage))) := rfl

theorem applyEntry_pos_eq (cfg : BacktestConfig) (bar : Bar) (st : SimState) :
    (applyEntry cfg bar st).pos =
      some { entry_date := bar.date,
             entry_price := bar.close * (1 + cfg.slippage),
             shares := cfg.position_size * st.cash / (bar.close * (1 + cfg.slippage)),
             cost := cfg.position_size * st.cash / (bar.close * (1 + cfg.slippage)) *
                 (bar.close * (1 + cfg.slippage)) +
               cfg.commission * (cfg.position_size * st.cash / (bar.close * (1 + cfg.slippage)) *
                 (bar.close * (1 + cfg.slippage))) } := rfl

theorem applyEntry_equity_eq (cfg : BacktestConfig) (bar : Bar) (st : SimState) :
    (applyEntry cfg bar st).equity = st.equity := rfl

theorem applyEntry_trades_eq (cfg : BacktestConfig) (bar : Bar) (st : SimState) :
    (applyEntry cfg bar st).trades = st.trades := rfl

theorem closePos_cash_eq (cfg : BacktestConfig) (p : Position) (base : ℚ)
    (reason : ExitReason) (dt : ℕ) (st : SimState) :
    (closePos cfg p base reason dt st).cash =
      st.cash + (p.shares * (base * (1 - cfg.slippage)) -
        cfg.commission * (p.shares * (base * (1 - cfg.slippage)))) := rfl

theorem closePos_pos_eq (cfg : BacktestConfig) (p : Position) (base : ℚ)
    (reason : ExitReason) (dt : ℕ) (st : SimState) :
    (closePos cfg p base reason dt st).pos = none := rfl

theorem closePos_equity_eq (cfg : BacktestConfig) (p : Position) (base : ℚ)
    (reason : ExitReason) (dt : ℕ) (st : SimState) :
    (closePos cfg p base reason dt st).equity = st.equity := rfl

theorem closePos_trades_eq (cfg : BacktestConfig) (p : Position) (base : ℚ)
    (reason : ExitReason) (dt : ℕ) (st : SimState) :
    (closePos cfg p base reason dt st).trades =
      st.trades ++
        [{ entry_date := p.entry_date, exit_date := dt, entry_price := p.entry_price,
           exit_price := base * (1 - cfg.slippage), shares := p.shares,
           pnl := p.shares * (base * (1 - cfg.slippage)) -
             cfg.commission * (p.shares * (base * (1 - cfg.slippage))) - p.cost,
           return_pct := (p.shares * (base * (1 - cfg.slippage)) -
             cfg.commission * (p.shares * (base * (1 - cfg.slippage))) - p.cost) / p.cost,
           hold_days := dt - p.entry_date, exit_reason := reason }] := rfl

theorem entryPhase_flat_enter (cfg : BacktestConfig) (d : Decision) (bar : Bar)
    (st : SimState) (h : st.pos = none) (hd : d = Decision.enter) :
    entryPhase cfg d bar st = applyEntry cfg bar st := by
  simp [entryPhase, h, hd]

theorem entryPhase_flat_skip (cfg : BacktestConfig) (d : Decision) (bar : Bar)
    (st : SimState) (h : st.pos = none) (hd : d ≠ Decision.enter) :
    entryPhase cfg d bar st = st := by
  simp [entryPhase, h, hd]

theorem entryPhase_long (cfg : BacktestConfig) (d : Decision) (bar : Bar)
    (st : SimState) (p : Position) (h : st.pos = some p) :
    entryPhase cfg d bar st = st := by
  simp [entryPhase, h]

theorem exitPhase_flat (cfg : BacktestConfig) (d : Decision) (bar : Bar)
    (st1 : SimState) (h : st1.pos = none) :
    exitPhase cfg d bar st1 = st1 := by
  simp [exitPhase, h]

theorem exitPhase_long_none (cfg : BacktestConfig) (d : Decision) (bar : Bar)
    (st1 : SimState) (p : Position) (h : st1.pos = some p)
    (ht : exitTrigger cfg d bar p = none) :
    exitPhase cfg d bar st1 = st1 := by
  simp [exitPhase, h, ht]

theorem exitPhase_long_close (cfg : BacktestConfig) (d : Decision) (bar : Bar)
    (st1 : SimState) (p : Position) (q : ℚ) (r : ExitReason) (h : st1.pos = some p)
    (ht : exitTrigger cfg d bar p = some (q, r)) :
    exitPhase cfg d bar st1 = closePos cfg p q r bar.date st1 := by
  simp [exitPhase, h, ht]

theorem markValue_flat (st : SimState) (bar : Bar) (h : st.pos = none) :
    markValue st bar = st.cash := by
  simp [markValue, h]

theorem markValue_long (st : SimState) (bar : Bar) (p : Position) (h : st.pos = some p) :
    markValue st bar = st.cash + p.shares * bar.close := by
  simp [markValue, h]

theorem stepBar_def (cfg : BacktestConfig) (hist : List Bar) (bar : Bar) (st : SimState) :
    stepBar cfg hist bar st =
      { exitPhase cfg (strategyDecision cfg hist) bar
          (entryPhase cfg (strategyDecision cfg hist) bar st) with
        equity := (exitPhase cfg (strategyDecision cfg hist) bar
            (entryPhase cfg (strategyDecision cfg hist) bar st)).equity ++
          [markValue (exitPhase cfg (strategyDecision cfg hist) bar
            (entryPhase cfg (strategyDecision cfg hist) bar st)) bar] } := rfl

theorem forceClose_flat (cfg : BacktestConfig) (bars : List Bar) (st : SimState)
    (h : st.pos = none) : forceClose cfg bars st = st := by
  unfold forceClose
  rw [h]

theorem forceClose_no_last (cfg : BacktestConfig) (bars : List Bar) (st : SimState)
    (hl : bars.getLast? = none) : forceClose cfg bars st = st := by
  unfold forceClose
  rw [hl]
  cases st.pos <;> rfl

theorem forceClose_long (cfg : BacktestConfig) (bars : List Bar) (st : SimState)
    (p : Position) (lb : Bar) (h : st.pos = some p) (hl : bars.getLast? = some lb) :
    forceClose cfg bars st = closePos cfg p lb.close .end_of_period lb.date st := by
  unfold forceClose
  rw [h, hl]

/-! ### Simulator invariants -/

theorem exitTrigger_price_cases (cfg : BacktestConfig) (d : Decision) (bar : Bar)
    (p : Position) (q : ℚ) (r : ExitReason) (h : exitTrigger cfg d bar p = some (q, r)) :
    (∃ sl, cfg.stop_loss = some sl ∧ q = p.entry_price * (1 - sl)) ∨
    (∃ tp, cfg.take_profit = some tp ∧ q = p.entry_price * (1 + tp)) ∨
    q = bar.close := by
  cases hsl0 : cfg.stop_loss with
  | some sl =>
    simp only [exitTrigger, stopTouched, takeProfitTouched, hsl0] at h
    by_cases h1 : bar.low ≤ p.entry_price * (1 - sl)
    · rw [if_pos h1] at h
      simp only [Option.some.injEq, Prod.mk.injEq] at h
      exact Or.inl ⟨sl, rfl, h.1.symm⟩
    · rw [if_neg h1] at h
      cases htp0 : cfg.take_profit with
      | some tp =>
        rw [htp0] at h
        simp only at h
        by_cases h2 : p.entry_price * (1 + tp) ≤ bar.high
        · rw [if_pos h2] at h
          simp only [Option.some.injEq, Prod.mk.injEq] at h
          exact Or.inr (Or.inl ⟨tp, rfl, h.1.symm⟩)
        · rw [if_neg h2] at h
          simp only at h
          by_cases h3 : d = Decision.exit
          · rw [if_pos h3] at h
            simp only [Option.some.injEq, Prod.mk.injEq] at h
            exact Or.inr (Or.inr h.1.symm)
          · rw [if_neg h3] at h
            simp at h
      | none =>
        rw [htp0] at h
        simp only at h
        by_cases h3 : d = Decision.exit
        · rw [if_pos h3] at h
          simp only [Option.some.injEq, Prod.mk.injEq] at h
          exact Or.inr (Or.inr h.1.symm)
        · rw [if_neg h3] at h
          simp at h
  | none =>
    simp only [exitTrigger, stopTouched, takeProfitTouched, hsl0] at h
    cases htp0 : cfg.take_profit with
    | some tp =>
      rw [htp0] at h
      simp only at h
      by_cases h2 : p.entry_price * (1 + tp) ≤ bar.high
      · rw [if_pos h2] at h
        simp only [Option.some.injEq, Prod.mk.injEq] at h
        exact Or.inr (Or.inl ⟨tp, rfl, h.1.symm⟩)
      · rw [if_neg h2] at h
        simp only at h
        by_cases h3 : d = Decision.exit
        · rw [if_pos h3] at h
          simp only [Option.some.injEq, Prod.mk.injEq] at h
          exact Or.inr (Or.inr h.1.symm)
        · rw [if_neg h3] at h
          simp at h
    | none =>
      rw [htp0] at h
      simp only at h
      by_cases h3 : d = Decision.exit
      · rw [if_pos h3] at h
        simp only [Option.some.injEq, Prod.mk.injEq] at h
        exact Or.inr (Or.inr h.1.symm)
      · rw [if_neg h3] at h
        simp at h

theorem exitTrigger_base_pos (cfg : BacktestConfig) (d : Decision) (bar : Bar)
    (p : Position) (q : ℚ) (r : ExitReason)
    (hsl : ∀ x, cfg.stop_loss = some x → 0 < x ∧ x < 1)
    (htp : ∀ x, cfg.take_profit = some x → 0 < x)
    (hentry : 0 < p.entry_price) (hclose : 0 < bar.close)
    (h : exitTrigger cfg d bar p = some (q, r)) : 0 < q := by
  rcases exitTrigger_price_cases cfg d bar p q r h with ⟨sl, hsl0, rfl⟩ | ⟨tp, htp0, rfl⟩ | rfl
  · exact mul_pos hentry (by linarith [(hsl sl hsl0).2])
  · exact mul_pos hentry (by linarith [htp tp htp0])
  · exact hclose

theorem applyEntry_inv (cfg : BacktestConfig) (bar : Bar) (st : SimState)
    (hok : CfgOK cfg) (hbar : 0 < bar.close) (hcash : 0 < st.cash)
    (hequity : ∀ v ∈ st.equity, 0 < v) :
    InvS (applyEntry cfg bar st) := by
  obtain ⟨hcap, hps, hps1, hcomm, hslip, hsl, htp, hbudget, hcomm1, hslip1⟩ := hok
  have hfill : 0 < bar.close * (1 + cfg.slippage) := mul_pos hbar (by linarith)
  have hsh : 0 < cfg.position_size * st.cash / (bar.close * (1 + cfg.slippage)) :=
    div_pos (mul_pos hps hcash) hfill
  have hnot : cfg.position_size * st.cash / (bar.close * (1 + cfg.slippage)) *
      (bar.close * (1 + cfg.slippage)) = cfg.position_size * st.cash :=
    div_mul_cancel₀ _ (ne_of_gt hfill)
  refine ⟨?_, ?_⟩
  · rw [applyEntry_equity_eq]
    exact hequity
  · rw [applyEntry_pos_eq, applyEntry_cash_eq]
    refine ⟨?_, hsh, hfill⟩
    rw [hnot]
    nlinarith [mul_nonneg hcash.le (sub_nonneg.2 hbudget)]

theorem closePos_inv (cfg : BacktestConfig) (p : Position) (base : ℚ) (reason : ExitReason)
    (dt : ℕ) (st : SimState)
    (hcomm1 : cfg.commission < 1) (hslip1 : cfg.slippage < 1)
    (hcash : 0 ≤ st.cash) (hsh : 0 < p.shares) (hbase : 0 < base)
    (hequity : ∀ v ∈ st.equity, 0 < v) :
    InvS (closePos cfg p base reason dt st) := by
  have hfill : 0 < base * (1 - cfg.slippage) := mul_pos hbase (by linarith)
  have hpr : 0 < p.shares * (base * (1 - cfg.slippage)) := mul_pos hsh hfill
  refine ⟨?_, ?_⟩
  · rw [closePos_equity_eq]
    exact hequity
  · rw [closePos_pos_eq, closePos_cash_eq]
    show 0 < st.cash + (p.shares * (base * (1 - cfg.slippage)) -
      cfg.commission * (p.shares * (base * (1 - cfg.slippage))))
    nlinarith [mul_pos hpr (sub_pos.2 hcomm1)]

theorem markValue_pos (st : SimState) (bar : Bar) (hinv : InvS st) (hbar : 0 < bar.close) :
    0 < markValue st bar := by
  obtain ⟨-, hpos⟩ := hinv
  cases hp : st.pos with
  | none =>
    rw [hp] at hpos
    rw [markValue_flat st bar hp]
    exact hpos
  | some p =>
    rw [hp] at hpos
    obtain ⟨hcash, hsh, -⟩ := hpos
    rw [markValue_long st bar p hp]
    nlinarith [mul_pos hsh hbar]

theorem entryPhase_inv (cfg : BacktestConfig) (d : Decision) (bar : Bar) (st : SimState)
    (hok : CfgOK cfg) (hbar : 0 < bar.close) (hinv : InvS st) :
    InvS (entryPhase cfg d bar st) := by
  cases hp : st.pos with
  | some p =>
    rw [entryPhase_long cfg d bar st p hp]
    exact hinv
  | none =>
    have hcash : 0 < st.cash := by
      have h2 := hinv.2
      rw [hp] at h2
      exact h2
    by_cases hd : d = Decision.enter
    · rw [entryPhase_flat_enter cfg d bar st hp hd]
      exact applyEntry_inv cfg bar st hok hbar hcash hinv.1
    · rw [entryPhase_flat_skip cfg d bar st hp hd]
      exact hinv

theorem exitPhase_inv (cfg : BacktestConfig) (d : Decision) (bar : Bar) (st1 : SimState)
    (hok : CfgOK cfg) (hbar : 0 < bar.close) (hinv : InvS st1) :
    InvS (exitPhase cfg d bar st1) := by
  obtain ⟨hcap, hps, hps1, hcomm, hslip, hsl, htp, hbudget, hcomm1, hslip1⟩ := hok
  cases hp : st1.pos with
  | none =>
    rw [exitPhase_flat cfg d bar st1 hp]
    exact hinv
  | some p =>
    have h2 := hinv.2
    rw [hp] at h2
    obtain ⟨hcash, hsh, hentry⟩ := h2
    cases ht : exitTrigger cfg d bar p with
    | none =>
      rw [exitPhase_long_none cfg d bar st1 p hp ht]
      exact hinv
    | some qr =>
      obtain ⟨q, r⟩ := qr
      rw [exitPhase_long_close cfg d bar st1 p q r hp ht]
      exact closePos_inv cfg p q r bar.date st1 hcomm1 hslip1 hcash hsh
        (exitTrigger_base_pos cfg d bar p q r hsl htp hentry hbar ht) hinv.1

theorem stepBar_inv (cfg : BacktestConfig) (hist : List Bar) (bar : Bar) (st : SimState)
    (hok : CfgOK cfg) (hbar : 0 < bar.close) (hinv : InvS st) :
    InvS (stepBar cfg hist bar st) := by
  have h2 : InvS (exitPhase cfg (strategyDecision cfg hist) bar
      (entryPhase cfg (strategyDecision cfg hist) bar st)) :=
    exitPhase_inv cfg _ bar _ hok hbar (entryPhase_inv cfg _ bar st hok hbar hinv)
  rw [stepBar_def]
  refine ⟨?_, h2.2⟩
  intro v hv
  rcases List.mem_append.1 hv with hv | hv
  · exact h2.1 v hv
  · rw [List.mem_singleton.1 hv]
    exact markValue_pos _ bar h2 hbar

theorem simLoop_inv (cfg : BacktestConfig) (hok : CfgOK cfg) :
    ∀ (rest hist : List Bar) (st : SimState), (∀ b ∈ rest, 0 < b.close) → InvS st →
    InvS (simLoop cfg hist rest st) := by
  intro rest
  induction rest with
  | nil =>
    intro hist st _ hinv
    simpa [simLoop] using hinv
  | cons b r ih =>
    intro hist st hb hinv
    rw [simLoop]
    exact ih (hist ++ [b]) _ (fun x hx => hb x (List.mem_cons_of_mem b hx))
      (stepBar_inv cfg _ b st hok (hb b (List.mem_cons_self b r)) hinv)

theorem simulate_inv (cfg : BacktestConfig) (bars : List Bar)
    (hok : CfgOK cfg) (hpos : ∀ b ∈ bars, 0 < b.close) :
    InvS (simulate cfg bars) := by
  have h0 : InvS (initState cfg) := ⟨by simp [initState], hok.1⟩
  have h1 : InvS (simLoop cfg [] bars (initState cfg)) :=
    simLoop_inv cfg hok bars [] (initState cfg) hpos h0
  unfold simulate
  cases hp : (simLoop cfg [] bars (initState cfg)).pos with
  | none =>
    rw [forceClose_flat cfg bars _ hp]
    exact h1
  | some p =>
    have h2 := h1.2
    rw [hp] at h2
    obtain ⟨hcash, hsh, hentry⟩ := h2
    cases hl : bars.getLast? with
    | none =>
      rw [forceClose_no_last cfg bars _ hl]
      exact h1
    | some lb =>
      have hlb : lb ∈ bars := by
        obtain ⟨hne, rfl⟩ := List.mem_getLast?_eq_getLast hl
        exact List.getLast_mem hne
      rw [forceClose_long cfg bars _ p lb hp hl]
      obtain ⟨hcap, hps, hps1, hcomm, hslip, hsl, htp, hbudget, hcomm1, hslip1⟩ := hok
      exact closePos_inv cfg p lb.close .end_of_period lb.date _ hcomm1 hslip1
        hcash hsh (hpos lb hlb) h1.1

theorem equityCurve_pos (cfg : BacktestConfig) (bars : List Bar)
    (hok : CfgOK cfg) (hpos : ∀ b ∈ bars, 0 < b.close) :
    ∀ v ∈ equityCurve cfg bars, 0 < v :=
  (simulate_inv cfg bars hok hpos).1

theorem finalValue_pos (cfg : BacktestConfig) (bars : List Bar)
    (hok : CfgOK cfg) (hpos : ∀ b ∈ bars, 0 < b.close) :
    0 < finalValue cfg bars := by
  unfold finalValue
  rcases getLastD_mem_or (equityCurve cfg bars) cfg.initial_capital with h | h
  · rw [h]
    exact hok.1
  · exact equityCurve_pos cfg bars hok hpos _ h

/-! ### Finiteness of the metrics -/

theorem ddDefined_of_pos : ∀ (l : List ℚ) (peak : ℚ), 0 < peak → (∀ v ∈ l, 0 < v) →
    DdDefined peak l := by
  intro l
  induction l with
  | nil =>
    intro peak _ _
    exact trivial
  | cons v vs ih =>
    intro peak hp hv
    have hm : 0 < max peak v := lt_max_of_lt_left hp
    exact ⟨ne_of_gt hm, ih (max peak v) hm fun x hx => hv x (List.mem_cons_of_mem v hx)⟩

theorem maxDrawdownDefined_of_pos (l : List ℚ) (h : ∀ v ∈ l, 0 < v) :
    MaxDrawdownDefined l := by
  cases l with
  | nil => exact trivial
  | cons e es =>
    exact ddDefined_of_pos es e (h e (List.mem_cons_self e es))
      fun v hv => h v (List.mem_cons_of_mem e hv)

theorem metricsFinite_of_pos (cfg : BacktestConfig) (bars : List Bar)
    (hok : CfgOK cfg) (hne : bars ≠ []) (hpos : ∀ b ∈ bars, 0 < b.close) :
    MetricsFinite cfg bars := by
  obtain ⟨b0, bt, rfl⟩ := List.exists_cons_of_ne_nil hne
  have heq := equityCurve_pos cfg (b0 :: bt) hok hpos
  refine ⟨ne_of_gt hok.1, ?_, ?_, ?_, ?_⟩
  · show b0.close ≠ 0
    exact ne_of_gt (hpos b0 (List.mem_cons_self b0 bt))
  · intro v hv
    exact ne_of_gt (heq v (List.dropLast_subset _ hv))
  · exact maxDrawdownDefined_of_pos _ heq
  · intro _
    have hf := finalValue_pos cfg (b0 :: bt) hok hpos
    unfold totalReturn
    have hq : 0 < finalValue cfg (b0 :: bt) / cfg.initial_capital := div_pos hf hok.1
    linarith

/-! ### Characterizing buy-and-hold runs -/

theorem buyhold_long_loop (cfg : BacktestConfig) (hs : cfg.strategy_type = .buy_hold)
    (hsl : cfg.stop_loss = none) (htp : cfg.take_profit = none) :
    ∀ (rest hist : List Bar) (st : SimState) (p : Position),
      st.pos = some p → 1 ≤ hist.length →
      simLoop cfg hist rest st =
        { st with equity := st.equity ++ rest.map fun b => st.cash + p.shares * b.close } := by
  intro rest
  induction rest with
  | nil =>
    intro hist st p hp hh
    obtain ⟨cash, pos, trades, equity⟩ := st
    simp [simLoop]
  | cons b r ih =>
    intro hist st p hp hh
    rw [simLoop]
    have hd : strategyDecision cfg (hist ++ [b]) = .hold := by
      simp only [strategyDecision, hs, List.length_append, List.length_cons, List.length_nil]
      rw [if_neg]
      omega
    have hstep : stepBar cfg (hist ++ [b]) b st =
        { st with equity := st.equity ++ [st.cash + p.shares * b.close] } := by
      rw [stepBar_def, hd]
      rw [entryPhase_long cfg _ b st p hp]
      rw [exitPhase_long_none cfg _ b st p hp
        (by simp [exitTrigger, stopTouched, takeProfitTouched, hsl, htp])]
      rw [markValue_long st b p hp]
    rw [hstep]
    rw [ih (hist ++ [b]) { st with equity := st.equity ++ [st.cash + p.shares * b.close] }
      p hp (by simp)]
    obtain ⟨cash, pos, trades, equity⟩ := st
    simp

theorem buyhold_simulate (cfg : BacktestConfig) (b0 : Bar) (rest : List Bar)
    (hs : cfg.strategy_type = .buy_hold) (hsl : cfg.stop_loss = none)
    (htp : cfg.take_profit = none) :
    simulate cfg (b0 :: rest) =
      closePos cfg (bhPosition cfg b0) (lastClose (b0 :: rest)) .end_of_period
        (lastDate (b0 :: rest)) (bhLongState cfg b0 (b0 :: rest)) := by
  have hlast : (b0 :: rest).getLast? =
      some ((b0 :: rest).getLast (List.cons_ne_nil b0 rest)) :=
    List.getLast?_eq_getLast_of_ne_nil (List.cons_ne_nil b0 rest)
  unfold simulate
  rw [simLoop]
  simp only [List.nil_append]
  have hd0 : strategyDecision cfg [b0] = Decision.enter := by
    simp [strategyDecision, hs]
  have hpos1 : (applyEntry cfg b0 (initState cfg)).pos = some (bhPosition cfg b0) := by
    rw [applyEntry_pos_eq]
    rfl
  have hstep : stepBar cfg [b0] b0 (initState cfg) = bhLongState cfg b0 [b0] := by
    rw [stepBar_def, hd0]
    rw [entryPhase_flat_enter cfg _ b0 (initState cfg) rfl rfl]
    rw [exitPhase_long_none cfg _ b0 _ (bhPosition cfg b0) hpos1
      (by simp [exitTrigger, stopTouched, takeProfitTouched, hsl, htp])]
    rw [markValue_long _ b0 (bhPosition cfg b0) hpos1]
    simp only [applyEntry_equity_eq, applyEntry_cash_eq, applyEntry_trades_eq,
      applyEntry_pos_eq]
    simp [bhLongState, bhCash, bhShares, bhFill, bhCost, bhPosition, initState]
  rw [hstep]
  rw [buyhold_long_loop cfg hs hsl htp rest [b0] (bhLongState cfg b0 [b0])
    (bhPosition cfg b0) rfl (by simp)]
  have hloopstate :
      { bhLongState cfg b0 [b0] with
        equity := (bhLongState cfg b0 [b0]).equity ++
          rest.map fun b => (bhLongState cfg b0 [b0]).cash + (bhPosition cfg b0).shares * b.close } =
      bhLongState cfg b0 (b0 :: rest) := by
    simp [bhLongState, bhPosition]
  rw [hloopstate]
  rw [forceClose_long cfg (b0 :: rest) _ (bhPosition cfg b0)
    ((b0 :: rest).getLast (List.cons_ne_nil b0 rest)) rfl hlast]
  simp [lastClose, lastDate, hlast]

theorem buyhold_equityCurve (cfg : BacktestConfig) (b0 : Bar) (rest : List Bar)
    (hs : cfg.strategy_type = .buy_hold) (hsl : cfg.stop_loss = none)
    (htp : cfg.take_profit = none) :
    equityCurve cfg (b0 :: rest) =
      (b0 :: rest).map fun b => bhCash cfg b0 + bhShares cfg b0 * b.close := by
  unfold equityCurve
  rw [buyhold_simulate cfg b0 rest hs hsl htp, closePos_equity_eq]
  rfl

theorem buyhold_tradeLedger (cfg : BacktestConfig) (b0 : Bar) (rest : List Bar)
    (hs : cfg.strategy_type = .buy_hold) (hsl : cfg.stop_loss = none)
    (htp : cfg.take_profit = none) :
    tradeLedger cfg (b0 :: rest) =
      [{ entry_date := b0.date, exit_date := lastDate (b0 :: rest),
         entry_price := bhFill cfg b0,
         exit_price := lastClose (b0 :: rest) * (1 - cfg.slippage),
         shares := bhShares cfg b0,
         pnl := bhShares cfg b0 * (lastClose (b0 :: rest) * (1 - cfg.slippage)) -
           cfg.commission * (bhShares cfg b0 * (lastClose (b0 :: rest) * (1 - cfg.slippage))) -
           bhCost cfg b0,
         return_pct := (bhShares cfg b0 * (lastClose (b0 :: rest) * (1 - cfg.slippage)) -
           cfg.commission * (bhShares cfg b0 * (lastClose (b0 :: rest) * (1 - cfg.slippage))) -
           bhCost cfg b0) / bhCost cfg b0,
         hold_days := lastDate (b0 :: rest) - b0.date,
         exit_reason := .end_of_period }] := by
  unfold tradeLedger
  rw [buyhold_simulate cfg b0 rest hs hsl htp, closePos_trades_eq]
  simp [bhLongState, bhPosition]

/-- C2 (amended): for every configuration that passes validation and whose
cost parameters keep the equity curve away from zero — entry budget
`position_size × (1 + commission) ≤ 1`, commission below 1 and slippage below
1 — and every nonempty Bar Series with positive closes, no metric computation
of the produced BacktestResult divides by zero or raises a non-positive base
to a fractional power (so every metric is a finite number, never NaN or
Infinity), and the sharpe_ratio is exactly 0 whenever the EquityCurve is
constant. -/
theorem backtest_metrics_finite (cfg : BacktestConfig) (bars : List Bar)
    (hv : validConfig cfg = true) (hne : bars ≠ []) (hpos : ∀ b ∈ bars, 0 < b.close)
    (hbudget : cfg.position_size * (1 + cfg.commission) ≤ 1)
    (hcomm1 : cfg.commission < 1) (hslip1 : cfg.slippage < 1) :
    MetricsFinite cfg bars ∧
    (ListConst (equityCurve cfg bars) → sharpeRatio cfg bars = 0) :=
  ⟨metricsFinite_of_pos cfg bars (cfgOK_of_valid cfg hv hbudget hcomm1 hslip1) hne hpos,
   fun h => sharpe_zero_of_const cfg bars h⟩

/-- C2 witness: the amended statement applied to the zero-cost buy-and-hold
configuration on the constant 3-bar series, whose EquityCurve is constant. -/
theorem backtest_metrics_finite_witness :
    MetricsFinite cfgBH barsFlat3 ∧ sharpeRatio cfgBH barsFlat3 = 0 := by
  have h := backtest_metrics_finite cfgBH barsFlat3
    (by simp [validConfig, cfgBH])
    (by simp [barsFlat3])
    (by intro b hb
        simp only [barsFlat3, List.mem_cons, List.not_mem_nil, or_false] at hb
        rcases hb with rfl | rfl | rfl <;> norm_num [mkFlatBar])
    (by norm_num [cfgBH]) (by norm_num [cfgBH]) (by norm_num [cfgBH])
  refine ⟨h.1, h.2 ?_⟩
  rw [show barsFlat3 = mkFlatBar 0 100 :: [mkFlatBar 1 100, mkFlatBar 2 100] from rfl]
  rw [buyhold_equityCurve cfgBH (mkFlatBar 0 100) [mkFlatBar 1 100, mkFlatBar 2 100]
    rfl rfl rfl]
  intro x hx y hy
  simp only [List.map_cons, List.map_nil, List.mem_cons, List.not_mem_nil, or_false] at hx hy
  rcases hx with rfl | rfl | rfl <;> rcases hy with rfl | rfl | rfl <;> rfl

/-- C2 counterexample: a validated configuration (buy-and-hold with a 100%
commission rate, which the input contract allows) on a positive 3-bar series
produces a result, yet its equity curve reaches exactly zero, so the first
daily return divides by zero — in floating point the volatility and
sharpe_ratio are NaN.  The claim as stated (finite metrics for every validated
Config and Bar Series) is therefore false. -/
theorem metrics_not_finite_at_full_commission :
    validConfig cfgFullComm = true ∧ barsFlat3 ≠ [] ∧
    (∀ b ∈ barsFlat3, 0 < b.close) ∧
    runBacktest cfgFullComm barsFlat3 = .ok (analyze cfgFullComm barsFlat3) ∧
    ¬ MetricsFinite cfgFullComm barsFlat3 := by
  have hv : validConfig cfgFullComm = true := by
    simp [validConfig, cfgFullComm, cfgBH]
  have hzero : bhCash cfgFullComm (mkFlatBar 0 100) +
      bhShares cfgFullComm (mkFlatBar 0 100) * (mkFlatBar 1 100).close = 0 := by
    norm_num [bhCash, bhShares, bhFill, cfgFullComm, cfgBH, mkFlatBar]
  refine ⟨hv, by simp [barsFlat3], ?_, ?_, ?_⟩
  · intro b hb
    simp only [barsFlat3, List.mem_cons, List.not_mem_nil, or_false] at hb
    rcases hb with rfl | rfl | rfl <;> norm_num [mkFlatBar]
  · simp [runBacktest, hv, barsFlat3]
  · intro h
    obtain ⟨-, -, h3, -, -⟩ := h
    refine absurd hzero (h3 _ ?_)
    rw [show barsFlat3 = mkFlatBar 0 100 :: [mkFlatBar 1 100, mkFlatBar 2 100] from rfl]
    rw [buyhold_equityCurve cfgFullComm (mkFlatBar 0 100) [mkFlatBar 1 100, mkFlatBar 2 100]
      rfl rfl rfl]
    simp [List.dropLast]

/-- C3: the simulation and the whole backtest are pure functions of the
configuration and the Bar Series — identical inputs produce an identical
Trade Ledger and EquityCurve (the whole simulator state) and identical
BacktestResult values. -/
theorem backtest_deterministic (cfg1 cfg2 : BacktestConfig) (bars1 bars2 : List Bar)
    (hc : cfg1 = cfg2) (hb : bars1 = bars2) :
    simulate cfg1 bars1 = simulate cfg2 bars2 ∧
    runBacktest cfg1 bars1 = runBacktest cfg2 bars2 := by
  subst hc
  subst hb
  exact ⟨rfl, rfl⟩

/-- C3 witness: the statement applied at a concrete configuration and series. -/
theorem backtest_deterministic_witness :
    simulate cfgBH bars3 = simulate cfgBH bars3 ∧
    runBacktest cfgBH bars3 = runBacktest cfgBH bars3 :=
  backtest_deterministic cfgBH cfgBH bars3 bars3 rfl rfl

/-- C1 (amended): for every nonempty Bar Series with positive closes, running
buy-and-hold with commission 0, slippage 0, a full position
(position_size = 1) and no stop-loss or take-profit yields a BacktestResult
whose total_return equals last_close / first_close − 1 and whose trade list
holds exactly one Trade entering on the first bar's date and exiting on the
last bar's date. -/
theorem buyhold_full_period (cfg : BacktestConfig) (bars : List Bar)
    (hne : bars ≠ []) (hpos : ∀ b ∈ bars, 0 < b.close)
    (hs : cfg.strategy_type = .buy_hold)
    (hc : cfg.commission = 0) (hslip : cfg.slippage = 0) (hp : cfg.position_size = 1)
    (hstop : cfg.stop_loss = none) (htp : cfg.take_profit = none)
    (hv : validConfig cfg = true) :
    runBacktest cfg bars = .ok (analyze cfg bars) ∧
    (analyze cfg bars).total_return = lastClose bars / headClose bars - 1 ∧
    (analyze cfg bars).trades.length = 1 ∧
    (analyze cfg bars).trades.map Trade.entry_date = [headDate bars] ∧
    (analyze cfg bars).trades.map Trade.exit_date = [lastDate bars] := by
  obtain ⟨b0, rest, rfl⟩ := List.exists_cons_of_ne_nil hne
  have hC : 0 < cfg.initial_capital := by
    simp only [validConfig, Bool.and_eq_true, decide_eq_true_eq] at hv
    exact hv.1.1.1.1.1.2
  have hclose : 0 < b0.close := hpos b0 (List.mem_cons_self b0 rest)
  have hCne : cfg.initial_capital ≠ 0 := ne_of_gt hC
  have hclose_ne : b0.close ≠ 0 := ne_of_gt hclose
  have htr := buyhold_tradeLedger cfg b0 rest hs hstop htp
  refine ⟨by simp [runBacktest, hv], ?_, ?_, ?_, ?_⟩
  · show totalReturn cfg (b0 :: rest) = lastClose (b0 :: rest) / headClose (b0 :: rest) - 1
    unfold totalReturn finalValue
    rw [buyhold_equityCurve cfg b0 rest hs hstop htp]
    rw [getLastD_map_cons]
    have hlastC : lastClose (b0 :: rest) =
        ((b0 :: rest).getLast (List.cons_ne_nil b0 rest)).close := by
      simp [lastClose, List.getLast?_eq_getLast_of_ne_nil (List.cons_ne_nil b0 rest)]
    have hheadC : headClose (b0 :: rest) = b0.close := rfl
    rw [hlastC, hheadC]
    unfold bhCash bhShares bhFill
    rw [hc, hslip, hp]
    field_simp
    ring
  · show (tradeLedger cfg (b0 :: rest)).length = 1
    rw [htr]
    rfl
  · show (tradeLedger cfg (b0 :: rest)).map Trade.entry_date = [headDate (b0 :: rest)]
    rw [htr]
    rfl
  · show (tradeLedger cfg (b0 :: rest)).map Trade.exit_date = [lastDate (b0 :: rest)]
    rw [htr]
    rfl

/-- C1 witness: the amended statement applied to the spec's concrete 3-bar
scenario (closes 100, 110, 90) with the full-position zero-cost buy-and-hold
configuration. -/
theorem buyhold_full_period_witness :
    runBacktest cfgBH bars3 = .ok (analyze cfgBH bars3) ∧
    (analyze cfgBH bars3).total_return = lastClose bars3 / headClose bars3 - 1 ∧
    (analyze cfgBH bars3).trades.length = 1 ∧
    (analyze cfgBH bars3).trades.map Trade.entry_date = [headDate bars3] ∧
    (analyze cfgBH bars3).trades.map Trade.exit_date = [lastDate bars3] :=
  buyhold_full_period cfgBH bars3 (by simp [bars3])
    (by intro b hb
        simp only [bars3, List.mem_cons, List.not_mem_nil, or_false] at hb
        rcases hb with rfl | rfl | rfl <;> norm_num [mkFlatBar])
    rfl rfl rfl rfl rfl rfl (by simp [validConfig, cfgBH])

/-- C1 counterexample: with position_size one half (still a valid
configuration) and zero commission and slippage, buy-and-hold on the 2-bar
series with closes 100 and 110 produces total_return 1/20, not
110/100 − 1 = 1/10 — the claim as stated, quantified over every
configuration with zero costs, is false. -/
theorem buyhold_claim_fails_at_half_position :
    validConfig cfgHalfPos = true ∧
    cfgHalfPos.strategy_type = .buy_hold ∧
    cfgHalfPos.commission = 0 ∧ cfgHalfPos.slippage = 0 ∧
    runBacktest cfgHalfPos barsUp2 = .ok (analyze cfgHalfPos barsUp2) ∧
    (analyze cfgHalfPos barsUp2).total_return ≠
      lastClose barsUp2 / headClose barsUp2 - 1 := by
  have hv : validConfig cfgHalfPos = true := by
    simp [validConfig, cfgHalfPos, cfgBH]
    norm_num
  refine ⟨hv, rfl, rfl, rfl, by simp [runBacktest, hv, barsUp2], ?_⟩
  show totalReturn cfgHalfPos barsUp2 ≠ lastClose barsUp2 / headClose barsUp2 - 1
  unfold totalReturn finalValue
  rw [show barsUp2 = mkFlatBar 0 100 :: [mkFlatBar 1 110] from rfl]
  rw [buyhold_equityCurve cfgHalfPos (mkFlatBar 0 100) [mkFlatBar 1 110] rfl rfl rfl]
  rw [getLastD_map_cons]
  have h1 : lastClose (mkFlatBar 0 100 :: [mkFlatBar 1 110]) = 110 := rfl
  have h2 : headClose (mkFlatBar 0 100 :: [mkFlatBar 1 110]) = 100 := rfl
  rw [h1, h2]
  norm_num [bhCash, bhShares, bhFill, cfgHalfPos, cfgBH, mkFlatBar, List.getLast]

/-! ### Warm-up shorter than the series -/

theorem decision_hold_of_short (cfg : BacktestConfig) (hist : List Bar)
    (h : hist.length < warmupBars cfg) : strategyDecision cfg hist = .hold := by
  cases hs : cfg.strategy_type with
  | buy_hold =>
    simp only [warmupBars, hs] at h
    exact absurd h (by omega)
  | ma_cross =>
    simp only [warmupBars, hs] at h
    simp only [strategyDecision, hs, maCrossDecision]
    rw [if_pos (by simpa using h)]
  | rsi =>
    simp only [warmupBars, hs] at h
    simp only [strategyDecision, hs, rsiDecision]
    rw [if_pos (by simpa using h)]

theorem flat_hold_loop (cfg : BacktestConfig) :
    ∀ (rest hist : List Bar) (st : SimState), st.pos = none →
      hist.length + rest.length < warmupBars cfg →
      simLoop cfg hist rest st =
        { st with equity := st.equity ++ rest.map fun _ => st.cash } := by
  intro rest
  induction rest with
  | nil =>
    intro hist st hp hlen
    obtain ⟨cash, pos, trades, equity⟩ := st
    simp [simLoop]
  | cons b r ih =>
    intro hist st hp hlen
    rw [simLoop]
    simp only [List.length_cons] at hlen
    have hd : strategyDecision cfg (hist ++ [b]) = .hold := by
      apply decision_hold_of_short
      simp only [List.length_append, List.length_cons, List.length_nil]
      omega
    have hstep : stepBar cfg (hist ++ [b]) b st =
        { st with equity := st.equity ++ [st.cash] } := by
      rw [stepBar_def, hd]
      rw [entryPhase_flat_skip cfg _ b st hp (by simp)]
      rw [exitPhase_flat cfg _ b st hp]
      rw [markValue_flat st b hp]
    rw [hstep]
    rw [ih (hist ++ [b]) { st with equity := st.equity ++ [st.cash] } hp
      (by simp only [List.length_append, List.length_cons, List.length_nil]; omega)]
    obtain ⟨cash, pos, trades, equity⟩ := st
    simp

theorem short_simulate (cfg : BacktestConfig) (bars : List Bar)
    (hw : bars.length < warmupBars cfg) :
    simulate cfg bars =
      { cash := cfg.initial_capital, pos := none, trades := [],
        equity := bars.map fun _ => cfg.initial_capital } := by
  unfold simulate
  rw [flat_hold_loop cfg bars [] (initState cfg) rfl (by simpa using hw)]
  rw [forceClose_flat cfg bars _ rfl]
  simp [initState]

/-- C5: for every validated configuration whose strategy warm-up window
exceeds the length of the (nonempty) Bar Series, the run completes without
error and yields a BacktestResult with total_trades 0, win_rate 0 and
sharpe_ratio 0; and the backtest page presents such an empty-trades result as
the normal "No Trades Executed" panel with no error box. -/
theorem warmup_short_series_zero_trades (cfg : BacktestConfig) (bars : List Bar)
    (hv : validConfig cfg = true) (hne : bars ≠ [])
    (hw : bars.length < warmupBars cfg) :
    runBacktest cfg bars = .ok (analyze cfg bars) ∧
    (analyze cfg bars).total_trades = 0 ∧
    (analyze cfg bars).win_rate = 0 ∧
    (analyze cfg bars).sharpe_ratio = 0 ∧
    resultsView (some (analyze cfg bars)) none =
      { showsErrorBox := false, panel := Panel.metricsNoTrades } := by
  have hsim := short_simulate cfg bars hw
  have htr : tradeLedger cfg bars = [] := by
    unfold tradeLedger
    rw [hsim]
  have heq : equityCurve cfg bars = bars.map fun _ => cfg.initial_capital := by
    unfold equityCurve
    rw [hsim]
  have hni : bars.isEmpty = false := by
    simp [List.isEmpty_iff, hne]
  refine ⟨by simp [runBacktest, hv, hni], ?_, ?_, ?_, ?_⟩
  · show (tradeLedger cfg bars).length = 0
    rw [htr]
    rfl
  · show winRate (tradeLedger cfg bars) = 0
    rw [htr]
    rfl
  · show sharpeRatio cfg bars = 0
    apply sharpe_zero_of_const
    rw [heq]
    intro x hx y hy
    obtain ⟨bx, -, rfl⟩ := List.mem_map.1 hx
    obtain ⟨by2, -, rfl⟩ := List.mem_map.1 hy
    rfl
  · show resultsView (some (analyze cfg bars)) none = _
    simp only [resultsView]
    rw [show (analyze cfg bars).trades = [] from htr]
    rfl

/-- C5 witness: the statement applied to the 20-period moving-average
crossover on a 5-bar series (warm-up 21 bars). -/
theorem warmup_short_series_zero_trades_witness :
    runBacktest cfgMA bars5 = .ok (analyze cfgMA bars5) ∧
    (analyze cfgMA bars5).total_trades = 0 ∧
    (analyze cfgMA bars5).win_rate = 0 ∧
    (analyze cfgMA bars5).sharpe_ratio = 0 ∧
    resultsView (some (analyze cfgMA bars5)) none =
      { showsErrorBox := false, panel := Panel.metricsNoTrades } :=
  warmup_short_series_zero_trades cfgMA bars5
    (by simp [validConfig, cfgMA, cfgBH])
    (by simp [bars5])
    (by simp [bars5, warmupBars, cfgMA, cfgBH])
